import Mathlib

/-!
Verification development for the tag-manager plugin's tag-input controller
(`src/admin/src/components/TagManagerInput.tsx`).

The component's data is untyped JavaScript/JSON data, embedded here as the
inductive `JsVal` (a JSON value extended with `undefined`).  Numbers are
modelled as integers: no code path in the component performs numeric
arithmetic, and only truthiness of numbers is observed.  Object/array
nesting-depth-bounded coercions use the budget `jsDepthBudget`; every value
appearing in the statements below has depth at most 4.

Pure functions of the source (`makeSlug`, `parseTagValue`) are embedded as
Lean functions of the same name.  The stateful component is embedded as
explicit state passing over `CState`; network effects (directory searches
and creations) are passed in as explicit behaviours (`DirResult`) and
counted, and `onChange` notifications to the Field Host are returned as
explicit event lists.
-/

/- Runtime JavaScript/JSON values: JSON values extended with `undefined`.
Arrays and objects are mutual inductives (rather than nested `List`s) so
that decidable equality is derivable and kernel-computable. -/
mutual
inductive JsVal where
  | undefined
  | null
  | bool (b : Bool)
  | num (n : Int)
  | str (s : String)
  | arr (xs : JsArr)
  | obj (fields : JsObj)
deriving DecidableEq
inductive JsArr where
  | nil
  | cons (hd : JsVal) (tl : JsArr)
deriving DecidableEq
inductive JsObj where
  | nil
  | cons (key : String) (val : JsVal) (tl : JsObj)
deriving DecidableEq
end

/-- Convert an embedded JS array to a Lean list. -/
def JsArr.toList : JsArr → List JsVal
  | .nil => []
  | .cons h t => h :: t.toList

/-- Convert a Lean list to an embedded JS array. -/
def JsArr.ofList : List JsVal → JsArr
  | [] => .nil
  | h :: t => .cons h (JsArr.ofList t)

/-- Convert an embedded JS object to a Lean association list. -/
def JsObj.toList : JsObj → List (String × JsVal)
  | .nil => []
  | .cons k v t => (k, v) :: t.toList

/-- Convert a Lean association list to an embedded JS object. -/
def JsObj.ofList : List (String × JsVal) → JsObj
  | [] => .nil
  | (k, v) :: t => .cons k v (JsObj.ofList t)

/-- Build a JS array value from a Lean list. -/
def jarr (xs : List JsVal) : JsVal := .arr (JsArr.ofList xs)

/-- Build a JS object value from a Lean association list. -/
def jobjOf (fs : List (String × JsVal)) : JsVal := .obj (JsObj.ofList fs)

/-- JavaScript truthiness.  `undefined`, `null`, `false`, `0` and the empty
string are falsy; arrays and objects (including empty ones) are truthy.
`NaN` does not arise in the modelled paths. -/
def truthy : JsVal → Bool
  | .undefined => false
  | .null => false
  | .bool b => b
  | .num n => n != 0
  | .str s => s != ""
  | .arr _ => true
  | .obj _ => true

/-- Embeds the test `typeof v === 'object'`: true for `null`, arrays and
objects, false for primitives. -/
def isObjType : JsVal → Bool
  | .null => true
  | .arr _ => true
  | .obj _ => true
  | _ => false

/-- Field lookup in an embedded JS object.  When the same key is bound more
than once (possible only in values built by `jsonParse` from JSON text with
duplicate keys), the last binding wins, matching `JSON.parse`; `undefined` is
never a stored value in parsed data, so it marks absence. -/
def JsObj.get : JsObj → String → JsVal
  | .nil, _ => .undefined
  | .cons k v rest, key =>
    match JsObj.get rest key with
    | .undefined => if k = key then v else .undefined
    | w => w

/-- Property access `v.key` as used by the component. On non-objects it
yields `undefined`; in JavaScript, access on `null`/`undefined` would
throw, but every access in the embedded code paths is either guarded by a
preceding truthiness test, optional chaining, or runs inside a `try`. -/
def getField (v : JsVal) (key : String) : JsVal :=
  match v with
  | .obj fs => fs.get key
  | _ => .undefined

/-- Project the payload of a string value (the declared TypeScript types
make the projected fields strings wherever this is used). -/
def strOf : JsVal → String
  | .str s => s
  | _ => ""

/-- Nesting-depth budget for the depth-recursive JS string coercions below.
Every JSON value occurring in the statements of this development has depth
at most 4; values nested deeper than the budget coerce to the empty string,
a documented modelling bound (JavaScript recurses unboundedly). -/
def jsDepthBudget : Nat := 32

/-- Join of an embedded JS array as performed by `Array.prototype.toString`
(comma-separated, with `null`/`undefined` elements rendered empty), taking
the element coercion as an argument. -/
def joinJsArr (elemFn : JsVal → String) : JsArr → String
  | .nil => ""
  | .cons h .nil =>
    (match h with
     | .null => ""
     | .undefined => ""
     | w => elemFn w)
  | .cons h (.cons h2 t) =>
    (match h with
     | .null => ""
     | .undefined => ""
     | w => elemFn w) ++ "," ++ joinJsArr elemFn (.cons h2 t)

/-- Fuelled JavaScript `String(v)` coercion; the fuel bounds array nesting
depth only. -/
def jsToStringFuel : Nat → JsVal → String
  | 0, _ => ""
  | f+1, v =>
    match v with
    | .undefined => "undefined"
    | .null => "null"
    | .bool b => if b then ("true") else ("false")
    | .num n => toString n
    | .str s => s
    | .arr xs => joinJsArr (jsToStringFuel f) xs
    | .obj _ => "[object Object]"

/-- JavaScript `String(v)` coercion (see `jsDepthBudget`). -/
def jsToString (v : JsVal) : String := jsToStringFuel jsDepthBudget v

/-- Whitespace per JavaScript's `\s` class and `String.prototype.trim`
(restricted to the code points that can occur in this development's
statements). -/
def isJsWhitespace (c : Char) : Bool :=
  c = ' ' || c = '\t' || c = '\n' || c = '\r' || c = '\x0b' || c = '\x0c' || c = ' '

/-- Embeds `String.prototype.trim`. -/
def jsTrim (s : String) : String :=
  String.mk (((s.data.dropWhile isJsWhitespace).reverse.dropWhile isJsWhitespace).reverse)

/-- Decidable fragment of the Unicode letter/number predicate
(`\p{L}` or `\p{N}`) used by `makeSlug`'s first regex, covering the scripts
exercised in this development: ASCII digits and letters, and the Devanagari
block's letters (general category Lo, code points U+0904 to U+0939, U+093D,
U+0950, U+0958 to U+0961, U+0971 to U+097F) and digits (Nd, U+0966 to
U+096F).  Devanagari combining vowel signs and other marks (categories
Mn/Mc, e.g. U+093E, U+0940) are not letters or numbers and are excluded,
exactly as in the JavaScript Unicode property classes.  Characters outside
these ranges are treated as outside the class; no statement below applies
`makeSlug` to such characters. -/
def isUnicodeLN (c : Char) : Bool :=
  let n := c.toNat
  (0x30 ≤ n && n ≤ 0x39) || (0x41 ≤ n && n ≤ 0x5A) || (0x61 ≤ n && n ≤ 0x7A) ||
  (0x904 ≤ n && n ≤ 0x939) || n = 0x93D || n = 0x950 ||
  (0x958 ≤ n && n ≤ 0x961) || (0x966 ≤ n && n ≤ 0x96F) || (0x971 ≤ n && n ≤ 0x97F)

/-- Replace every maximal run of characters satisfying `p` by the single
character `r` (the effect of a global regex replace of `[class]+`). The
boolean records whether the previous character was inside a run. -/
def squashRunsAux (p : Char → Bool) (r : Char) : Bool → List Char → List Char
  | _, [] => []
  | inRun, c :: cs =>
    if p c then
      if inRun then squashRunsAux p r true cs
      else r :: squashRunsAux p r true cs
    else c :: squashRunsAux p r false cs

/-- Embeds `String.prototype.toLowerCase` (ASCII case mapping via
`Char.toLower`; the non-ASCII characters exercised in this development are
caseless). -/
def jsToLower (s : String) : String := String.mk (s.data.map Char.toLower)

/-- Embeds `makeSlug` (lines 24-32): lower-case, trim, strip characters
outside letters/digits/whitespace/hyphen, collapse whitespace/underscore
runs to single hyphens, collapse hyphen runs, trim leading and trailing
hyphens. -/
def makeSlug (text : String) : String :=
  let step1 := (jsTrim (jsToLower text)).data
  let step2 := step1.filter (fun c => isUnicodeLN c || isJsWhitespace c || c = '-')
  let step3 := squashRunsAux (fun c => isJsWhitespace c || c = '_') '-' false step2
  let step4 := squashRunsAux (fun c => c = '-') '-' false step3
  String.mk ((step4.dropWhile (fun c => c = '-')).reverse.dropWhile (fun c => c = '-')).reverse

/-- Whitespace skipped by `JSON.parse` between tokens. -/
def skipWs (l : List Char) : List Char :=
  l.dropWhile (fun c => c = ' ' || c = '\t' || c = '\n' || c = '\r')

/-- Value of a hexadecimal digit, if any. -/
def hexVal (c : Char) : Option Nat :=
  if '0' ≤ c ∧ c ≤ '9' then some (c.toNat - 48)
  else if 'a' ≤ c ∧ c ≤ 'f' then some (c.toNat - 87)
  else if 'A' ≤ c ∧ c ≤ 'F' then some (c.toNat - 55)
  else none

/-- Parse the body of a JSON string literal (after the opening quote),
returning the decoded characters and the remaining input.  Handles the
JSON escapes including `\uXXXX` (surrogate pairs are not recombined; none
occur in this development).  The fuel bounds the number of characters. -/
def parseStrChars : Nat → List Char → Option (List Char × List Char)
  | 0, _ => none
  | f+1, l =>
    match l with
    | [] => none
    | '"' :: rest => some ([], rest)
    | '\\' :: rest =>
      match rest with
      | '"' :: r => (parseStrChars f r).map (fun p => ('"' :: p.1, p.2))
      | '\\' :: r => (parseStrChars f r).map (fun p => ('\\' :: p.1, p.2))
      | '/' :: r => (parseStrChars f r).map (fun p => ('/' :: p.1, p.2))
      | 'b' :: r => (parseStrChars f r).map (fun p => ('\x08' :: p.1, p.2))
      | 'f' :: r => (parseStrChars f r).map (fun p => ('\x0c' :: p.1, p.2))
      | 'n' :: r => (parseStrChars f r).map (fun p => ('\n' :: p.1, p.2))
      | 'r' :: r => (parseStrChars f r).map (fun p => ('\r' :: p.1, p.2))
      | 't' :: r => (parseStrChars f r).map (fun p => ('\t' :: p.1, p.2))
      | 'u' :: h1 :: h2 :: h3 :: h4 :: r =>
        match hexVal h1, hexVal h2, hexVal h3, hexVal h4 with
        | some a, some b, some c, some d =>
          (parseStrChars f r).map
            (fun p => (Char.ofNat (((a * 16 + b) * 16 + c) * 16 + d) :: p.1, p.2))
        | _, _, _, _ => none
      | _ => none
    | c :: rest =>
      if c.toNat < 32 then none
      else (parseStrChars f rest).map (fun p => (c :: p.1, p.2))

/-- Parse a nonempty run of decimal digits.  JSON number literals are
modelled as integers: fractional and exponent forms are rejected, and
leading zeros are accepted; neither divergence from `JSON.parse` is
reachable from any statement below. -/
def parseNat (l : List Char) : Option (Nat × List Char) :=
  let ds := l.takeWhile Char.isDigit
  if ds.isEmpty then none
  else some (ds.foldl (fun acc c => acc * 10 + (c.toNat - 48)) 0, l.drop ds.length)

/-- Parse the elements of a nonempty JSON array (input positioned at the
first element), with the value grammar supplied as `pv`. -/
def arrLoop (pv : List Char → Option (JsVal × List Char)) :
    Nat → List Char → Option (List JsVal × List Char)
  | 0, _ => none
  | f+1, l =>
    match pv l with
    | none => none
    | some (v, r) =>
      match skipWs r with
      | ',' :: r2 => (arrLoop pv f r2).map (fun p => (v :: p.1, p.2))
      | ']' :: r2 => some ([v], r2)
      | _ => none

/-- Parse the members of a nonempty JSON object (input positioned at the
first key), with the value grammar supplied as `pv`. -/
def objLoop (pv : List Char → Option (JsVal × List Char)) :
    Nat → List Char → Option (List (String × JsVal) × List Char)
  | 0, _ => none
  | f+1, l =>
    match skipWs l with
    | '"' :: r =>
      match parseStrChars (f+1) r with
      | some (cs, r2) =>
        match skipWs r2 with
        | ':' :: r3 =>
          match pv r3 with
          | some (v, r4) =>
            match skipWs r4 with
            | ',' :: r5 => (objLoop pv f r5).map (fun p => ((String.mk cs, v) :: p.1, p.2))
            | '\x7d' :: r5 => some ([(String.mk cs, v)], r5)
            | _ => none
          | none => none
        | _ => none
      | none => none
    | _ => none

/-- Parse one JSON value, returning it and the remaining input.  The fuel
bounds the combined nesting depth and element count, which the caller
`jsonParse` sizes from the input length. -/
def parseVal : Nat → List Char → Option (JsVal × List Char)
  | 0, _ => none
  | f+1, l =>
    match skipWs l with
    | 'n' :: 'u' :: 'l' :: 'l' :: r => some (.null, r)
    | 't' :: 'r' :: 'u' :: 'e' :: r => some (.bool true, r)
    | 'f' :: 'a' :: 'l' :: 's' :: 'e' :: r => some (.bool false, r)
    | '"' :: r => (parseStrChars (f+1) r).map (fun p => (.str (String.mk p.1), p.2))
    | '[' :: r =>
      match skipWs r with
      | ']' :: r2 => some (.arr .nil, r2)
      | r2 => (arrLoop (parseVal f) f r2).map (fun p => (jarr p.1, p.2))
    | '\x7b' :: r =>
      match skipWs r with
      | '\x7d' :: r2 => some (.obj .nil, r2)
      | r2 => (objLoop (parseVal f) f r2).map (fun p => (jobjOf p.1, p.2))
    | '-' :: r => (parseNat r).map (fun p => (.num (-(p.1 : Int)), p.2))
    | c :: r =>
      if c.isDigit then (parseNat (c :: r)).map (fun p => (.num (p.1 : Int), p.2))
      else none
    | [] => none

/-- Embeds `JSON.parse`: parse a complete JSON text, rejecting trailing
input; `none` models the thrown `SyntaxError`. -/
def jsonParse (s : String) : Option JsVal :=
  match parseVal (4 * s.length + 16) s.data with
  | some (v, r) => if skipWs r = [] then some v else none
  | none => none

/-- Runtime tag record as the component stores it (interface `TagData`
declares both fields as strings; at runtime the fields hold whatever the
decoded value or the directory supplied, so they are embedded as raw JS
values). -/
structure JTag where
  documentId : JsVal
  name : JsVal
deriving DecidableEq

/-- Shorthand for a well-typed tag record with string fields. -/
def JTag.mkStr (documentId name : String) : JTag := ⟨.str documentId, .str name⟩

/-- Embeds the element conversion of `parseTagValue` (lines 55-58):
`documentId: t.documentId || ''` and `name: String(t.name)`. -/
def tagOfJs (t : JsVal) : JTag :=
  ⟨if truthy (getField t ("documentId")) then getField t ("documentId") else .str (""),
   .str (jsToString (getField t ("name")))⟩

/-- Embeds the array branch of `parseTagValue` (lines 52-59): keep entries
that are truthy, of object type, and have a truthy `name`; convert each
with `tagOfJs`.  Non-array data yields the empty list (line 61). -/
def parseTagData (data : JsVal) : List JTag :=
  match data with
  | .arr xs =>
    ((JsArr.toList xs).filter
      (fun t => truthy t && isObjType t && truthy (getField t ("name")))).map tagOfJs
  | _ => []

/-- Embeds `parseTagValue` (lines 40-62): falsy input yields the empty
list; string input is `JSON.parse`d, with parse failure yielding the empty
list; then the array branch of `parseTagData` applies. -/
def parseTagValue (value : JsVal) : List JTag :=
  if !truthy value then []
  else
    match value with
    | .str s =>
      match jsonParse s with
      | some d => parseTagData d
      | none => []
    | v => parseTagData v

/-- JSON value of one committed tag as produced by `JSON.stringify` of the
object literal `\x7b documentId, name \x7d` (insertion key order). -/
def encodeTag (t : JTag) : JsVal :=
  .obj (.cons ("documentId") t.documentId (.cons ("name") t.name .nil))

/-- JSON value of `JSON.stringify(newTags)` (line 124): the encoded value
pushed to the Field Host, as a JSON value. -/
def encodeTagsJsv (tags : List JTag) : JsVal := .arr (JsArr.ofList (tags.map encodeTag))

/-- Escape one character as inside a JSON string literal. -/
def escapeJsonChar (c : Char) : List Char :=
  if c = '"' then ['\\', '"']
  else if c = '\\' then ['\\', '\\']
  else if c = '\n' then ['\\', 'n']
  else if c = '\r' then ['\\', 'r']
  else if c = '\t' then ['\\', 't']
  else if c = '\x08' then ['\\', 'b']
  else if c = '\x0c' then ['\\', 'f']
  else if c.toNat < 32 then
    ['\\', 'u', '0', '0',
     (Nat.digitChar (c.toNat / 16)), (Nat.digitChar (c.toNat % 16))]
  else [c]

/-- Serialize a JSON string literal. -/
def stringifyStr (s : String) : String :=
  "\"" ++ String.mk ((s.data.map escapeJsonChar).flatten) ++ "\""

/-- Comma-join of serialized array elements, with the element serializer
supplied as an argument. -/
def joinStringified (elemFn : JsVal → String) : JsArr → String
  | .nil => ""
  | .cons h .nil => elemFn h
  | .cons h (.cons h2 t) => elemFn h ++ "," ++ joinStringified elemFn (.cons h2 t)

/-- Comma-join of serialized object members, with the value serializer
supplied as an argument. -/
def joinStringifiedObj (elemFn : JsVal → String) : JsObj → String
  | .nil => ""
  | .cons k v .nil => stringifyStr k ++ ":" ++ elemFn v
  | .cons k v (.cons k2 v2 t) =>
    stringifyStr k ++ ":" ++ elemFn v ++ "," ++ joinStringifiedObj elemFn (.cons k2 v2 t)

/-- Fuelled `JSON.stringify`; the fuel bounds nesting depth only.  Inside
arrays `undefined` serializes as `null`; an `undefined` member value would
be omitted by JavaScript but is rendered as `null` here — no object with
an `undefined` member is ever serialized in this development. -/
def jsonStringifyFuel : Nat → JsVal → String
  | 0, _ => ""
  | f+1, v =>
    match v with
    | .undefined => "null"
    | .null => "null"
    | .bool b => if b then ("true") else ("false")
    | .num n => toString n
    | .str s => stringifyStr s
    | .arr xs => "[" ++ joinStringified (jsonStringifyFuel f) xs ++ "]"
    | .obj fs => "\x7b" ++ joinStringifiedObj (jsonStringifyFuel f) fs ++ "\x7d"

/-- Embeds `JSON.stringify` (see `jsDepthBudget`). -/
def jsonStringify (v : JsVal) : String := jsonStringifyFuel jsDepthBudget v

/-- Controller state: the component's `useState` hooks plus the two refs
that carry interaction state (`hasUserEdited`, and the pending debounce
timer with the input text its callback captured).  The layout-only state
(`dropdownFlip`, measured from the DOM) is not modelled. -/
structure CState where
  tags : List JTag
  inputValue : String
  suggestions : List JTag
  showSuggestions : Bool
  selectedIndex : Int
  isCreating : Bool
  tagApiPath : String
  hasUserEdited : Bool
  pendingSearch : Option String
deriving DecidableEq

/-- Initial state at mount (the `useState` initial values; `tagApiPath` is
set by the config effect before any directory call). -/
def initialState (tagApiPath : String) : CState :=
  ⟨[], "", [], false, -1, false, tagApiPath, false, none⟩

/-- Change notification delivered to the Field Host through `onChange`
(lines 121-127).  The `value` field carries the JSON value whose
serialization `JSON.stringify(newTags)` is sent; `fieldType` is always
`"json"`. -/
structure ChangeEvent where
  fieldName : String
  value : JsVal
  fieldType : String
deriving DecidableEq

/-- The single notification emitted for a committed tag list. -/
def mkChangeEvent (fieldName : String) (newTags : List JTag) : ChangeEvent :=
  ⟨fieldName, encodeTagsJsv newTags, "json"⟩

/-- Embeds `updateValue` (lines 117-130): latch `hasUserEdited`, store the
new tag list, and emit exactly one change notification. -/
def updateValue (s : CState) (fieldName : String) (newTags : List JTag) :
    CState × List ChangeEvent :=
  ({ s with hasUserEdited := true, tags := newTags }, [mkChangeEvent fieldName newTags])

/-- Embeds the value-decoding effect (lines 108-114): a no-op once the user
has edited; otherwise decode the prop and, only when the decoded list is
nonempty, replace the committed tags. -/
def valueEffect (s : CState) (value : JsVal) : CState :=
  if s.hasUserEdited then s
  else
    let parsed := parseTagValue value
    if parsed.length > 0 then { s with tags := parsed } else s

/-- Outcome of an asynchronous directory call: a fulfilled response or a
rejection (a thrown/`await`-raised error). -/
inductive DirResult (α : Type) where
  | ok (a : α)
  | err
deriving DecidableEq

/-- Embeds the synchronous empty-query branch of `searchTags`
(lines 143-147): clear suggestions, hide the dropdown, no directory
request. -/
def searchTagsEmpty (s : CState) : CState × List ChangeEvent :=
  ({ s with suggestions := [], showSuggestions := false }, [])

/-- Embeds the fulfilled-response continuation of `searchTags`
(lines 152-163).  `committedAtIssue` is the `tags` list captured by the
callback's closure when the request was issued; `results` is the response's
result list (the envelope access `response.data?.results || []` is modelled
by supplying the extracted list, with a missing field corresponding to
`[]`).  The response is applied unconditionally: suggestions are replaced,
the dropdown shown iff any remain, and the highlight reset — there is no
request-generation check.  No notification is emitted. -/
def searchTagsSuccess (s : CState) (committedAtIssue : List JTag) (results : List JsVal) :
    CState × List ChangeEvent :=
  let selectedIds := committedAtIssue.map (fun t => t.documentId)
  let filtered := (results.filter
      (fun t => !(selectedIds.contains (getField t ("documentId"))))).map
    (fun t => (⟨getField t ("documentId"), getField t ("name")⟩ : JTag))
  ({ s with suggestions := filtered,
            showSuggestions := decide (filtered.length > 0),
            selectedIndex := -1 }, [])

/-- Embeds the rejection branch of `searchTags` (lines 164-167): the error
is logged only; suggestions are cleared and nothing else changes. -/
def searchTagsFailure (s : CState) : CState × List ChangeEvent :=
  ({ s with suggestions := [] }, [])

/-- Embeds `handleInputChange` (lines 173-181): store the draft text,
cancel any pending debounce timer, and schedule a new one capturing the
current text.  No search is issued yet and no notification is emitted. -/
def handleInputChange (s : CState) (val : String) : CState × List ChangeEvent :=
  ({ s with inputValue := val, pendingSearch := some val }, [])

/-- Expiry of the debounce timer (line 178): if a timer is pending, it
fires once, invoking `searchTags` with the trimmed captured text; the
returned list is the issued `searchTags` invocations. -/
def fireDebounce (s : CState) : CState × List String :=
  match s.pendingSearch with
  | some v => ({ s with pendingSearch := none }, [jsTrim v])
  | none => (s, [])

/-- Outcome of `findOrCreateTag`: the resolved record (null modelled as
`none`), the number of directory requests performed, and the
`isCreating` flag on exit. -/
structure FocOutcome where
  result : Option JTag
  dirCalls : Nat
  isCreatingAfter : Bool
deriving DecidableEq

/-- Embeds `findOrCreateTag` (lines 184-224).  The duplicate check against
the committed names runs before `setIsCreating(true)` and before any
directory request; `strOf` projects the committed name's string payload
(names are strings per interface `TagData`).  `searchBeh` is the
exact-match lookup's outcome carrying the extracted result list
(`searchResp.data?.results || []`); `createBeh` carries the creation
response's `data` payload raw, so the `createResp.data?.data ||
createResp.data` unwrapping and the `created?.documentId` truthiness check
are embedded faithfully.  Every rejection is caught (the function never
throws) and the `finally` clause clears `isCreating` on each path that set
it. -/
def findOrCreateTag (tagApiPath : String) (tags : List JTag) (isCreating0 : Bool)
    (tagName : String) (searchBeh : DirResult (List JsVal)) (createBeh : DirResult JsVal) :
    FocOutcome :=
  let trimmed := jsTrim tagName
  if trimmed = "" ∨ tagApiPath = "" then ⟨none, 0, isCreating0⟩
  else if (tags.find? (fun t => jsToLower (strOf t.name) = jsToLower trimmed)).isSome then
    ⟨none, 0, isCreating0⟩
  else
    match searchBeh with
    | .err => ⟨none, 1, false⟩
    | .ok existing =>
      match existing with
      | e :: _ => ⟨some ⟨getField e ("documentId"), getField e ("name")⟩, 1, false⟩
      | [] =>
        match createBeh with
        | .err => ⟨none, 2, false⟩
        | .ok respData =>
          let created :=
            if truthy (getField respData ("data")) then getField respData ("data")
            else respData
          if truthy (getField created ("documentId")) then
            ⟨some ⟨getField created ("documentId"),
                   if truthy (getField created ("name")) then getField created ("name")
                   else .str trimmed⟩, 2, false⟩
          else ⟨none, 2, false⟩

/-- Argument of `addTag`: a suggestion record or a free-text name. -/
inductive TagOrName where
  | tag (t : JTag)
  | name (s : String)
deriving DecidableEq

/-- Outcome of a user-level operation: resulting state, the change
notifications pushed to the Field Host, and the directory requests
performed. -/
structure OpOutcome where
  state : CState
  notified : List ChangeEvent
  dirCalls : Nat
deriving DecidableEq

/-- The draft-clearing epilogue of `addTag` (lines 241-243). -/
def clearDraft (s : CState) : CState :=
  { s with inputValue := "", suggestions := [], showSuggestions := false }

/-- Embeds `addTag` (lines 227-247).  A record argument already present by
`documentId` returns early (before the epilogue); a name argument resolves
through `findOrCreateTag`; a non-null resolution appends and notifies via
`updateValue` exactly once. -/
def addTag (s : CState) (fieldName : String) (arg : TagOrName)
    (searchBeh : DirResult (List JsVal)) (createBeh : DirResult JsVal) : OpOutcome :=
  match arg with
  | .tag t =>
    if (s.tags.find? (fun u => u.documentId == t.documentId)).isSome then ⟨s, [], 0⟩
    else
      let (s1, evs) := updateValue s fieldName (s.tags ++ [t])
      ⟨clearDraft s1, evs, 0⟩
  | .name nm =>
    let foc := findOrCreateTag s.tagApiPath s.tags s.isCreating nm searchBeh createBeh
    let s0 := { s with isCreating := foc.isCreatingAfter }
    match foc.result with
    | some t =>
      let (s1, evs) := updateValue s0 fieldName (s0.tags ++ [t])
      ⟨clearDraft s1, evs, foc.dirCalls⟩
    | none => ⟨clearDraft s0, [], foc.dirCalls⟩

/-- Embeds `removeTag` (lines 250-255): filter out every committed entry
whose `documentId` equals the given one, then re-encode and notify through
`updateValue` — unconditionally, even when no entry matches. -/
def removeTag (s : CState) (fieldName : String) (documentId : JsVal) :
    CState × List ChangeEvent :=
  updateValue s fieldName (s.tags.filter (fun t => t.documentId != documentId))

/-- Embeds `handleKeyDown` (lines 258-283): Enter/comma commit the
highlighted suggestion or the trimmed draft; Backspace on an empty draft
with committed tags removes by the last tag's `documentId`; the arrow keys
move the highlight clamped to `[-1, suggestions.length - 1]`; Escape hides
the dropdown. -/
def handleKeyDown (s : CState) (fieldName : String) (key : String)
    (searchBeh : DirResult (List JsVal)) (createBeh : DirResult JsVal) : OpOutcome :=
  if key = "Enter" ∨ key = "," then
    if 0 ≤ s.selectedIndex ∧ s.selectedIndex < (s.suggestions.length : Int) then
      addTag s fieldName (.tag (s.suggestions.getD s.selectedIndex.toNat ⟨.undefined, .undefined⟩))
        searchBeh createBeh
    else if jsTrim s.inputValue ≠ "" then
      addTag s fieldName (.name (jsTrim s.inputValue)) searchBeh createBeh
    else ⟨s, [], 0⟩
  else if key = "Backspace" ∧ s.inputValue = "" ∧ s.tags.length > 0 then
    match s.tags.getLast? with
    | some last =>
      let (s1, evs) := removeTag s fieldName last.documentId
      ⟨s1, evs, 0⟩
    | none => ⟨s, [], 0⟩
  else if key = "ArrowDown" then
    ⟨{ s with selectedIndex := min (s.selectedIndex + 1) ((s.suggestions.length : Int) - 1) }, [], 0⟩
  else if key = "ArrowUp" then
    ⟨{ s with selectedIndex := max (s.selectedIndex - 1) (-1) }, [], 0⟩
  else if key = "Escape" then
    ⟨{ s with showSuggestions := false, selectedIndex := -1 }, [], 0⟩
  else ⟨s, [], 0⟩

/-- Test whether a runtime value is a string. -/
def isStrVal : JsVal → Bool
  | .str _ => true
  | _ => false

/-- Sample controller state used by concrete witnesses: one committed tag
`Go`, empty draft, directory path configured. -/
def sampleState : CState :=
  { initialState ("/content-manager/collection-types/api::tag.tag") with
      tags := [JTag.mkStr ("1") ("Go")] }

/-- Helper for the round-trip proofs: `JsArr.ofList` and `JsArr.toList` are
mutually inverse. -/
@[simp] theorem JsArr.toList_ofList (l : List JsVal) : (JsArr.ofList l).toList = l := by
  induction l with
  | nil => rfl
  | cons h t ih => simp [JsArr.ofList, JsArr.toList, ih]

/-- Reading back the `name` member of an encoded tag object. -/
@[simp] theorem getField_encodeTag_name (t : JTag) : getField (encodeTag t) ("name") = t.name := by
  cases t with
  | mk d n => cases n <;> rfl

/-- Reading back the `documentId` member of an encoded tag object. -/
@[simp] theorem getField_encodeTag_documentId (t : JTag) :
    getField (encodeTag t) ("documentId") = t.documentId := by
  cases t with
  | mk d n => cases n <;> rfl

/-- Coercing a string value with `String(-)` is the identity on its
payload. -/
@[simp] theorem jsToString_str (s : String) : jsToString (JsVal.str s) = s := rfl

/-- After any run of `handleInputChange` steps from a state whose debounce
slot holds `d`, the pending query is the last text entered (or `d` when no
step ran): each keystroke cancels the previously scheduled timer. -/
theorem pendingSearch_foldl (l : List String) : ∀ (s : CState) (d : String),
    s.pendingSearch = some d →
    (l.foldl (fun s t => (handleInputChange s t).1) s).pendingSearch = some (l.getLastD d) := by
  induction l with
  | nil => intro s d h; simpa using h
  | cons a t ih =>
    intro s d h
    simp only [List.foldl_cons, List.getLastD_cons]
    exact ih ((handleInputChange s a).1) a rfl

/-- C7 (confirmed): `makeSlug "Hello, World!"` is `"hello-world"`, and
`makeSlug "  मराठी  भाषा "` is the non-empty hyphenated lowercase slug
`"मरठ-भष"` retaining exactly the Devanagari letters of the input (the
combining vowel signs are category Mc, outside the regex's letter/number
classes); the derivation operates on Unicode letter/number categories, not
ASCII ranges. -/
theorem c7_make_slug :
    makeSlug ("Hello, World!") = "hello-world" ∧
    makeSlug ("  मराठी  भाषा ") = "मरठ-भष" ∧
    makeSlug ("  मराठी  भाषा ") ≠ "" ∧
    '-' ∈ (makeSlug ("  मराठी  भाषा ")).data ∧
    jsToLower (makeSlug ("  मराठी  भाषा ")) = makeSlug ("  मराठी  भाषा ") ∧
    (makeSlug ("  मराठी  भाषा ")).data.filter isUnicodeLN = ['म', 'र', 'ठ', 'भ', 'ष'] := by
  decide

/-- C8 (confirmed): any number of draft-text changes inside one debounce
window (each `handleInputChange` cancelling the previous timer, so no
timer fires between them) followed by the single surviving timer expiry
issues exactly one `searchTags` invocation, carrying the trimmed final
text; a further expiry issues nothing. -/
theorem c8_debounce_collapses (s : CState) (t1 : String) (rest : List String) :
    ((fireDebounce
        (rest.foldl (fun s t => (handleInputChange s t).1) (handleInputChange s t1).1)).2 =
      [jsTrim (rest.getLastD t1)]) ∧
    (fireDebounce
        (fireDebounce
          (rest.foldl (fun s t => (handleInputChange s t).1) (handleInputChange s t1).1)).1).2 =
      [] := by
  have hp := pendingSearch_foldl rest ((handleInputChange s t1).1) t1 rfl
  refine ⟨by simp [fireDebounce, hp], by simp [fireDebounce, hp]⟩

/-- C2 (code bug): the fulfilled-response handler of `searchTags` publishes
its results unconditionally, with no request-generation check, so a stale
response arriving after a newer one overwrites the newer suggestions.
Demonstration: search A (query `"a"`, results `alpha`) is issued before
search B (query `"ab"`, results `ab`); B's response is applied first, then
A's late response — the final suggestions are A's, where the claim and the
specification require them to remain B's. -/
theorem c2_stale_response_overwrites :
    ((searchTagsSuccess
        ((searchTagsSuccess (initialState ("p")) []
            [jobjOf [(("documentId"), .str ("2")), (("name"), .str ("ab"))]]).1) []
        [jobjOf [(("documentId"), .str ("1")), (("name"), .str ("alpha"))]]).1.suggestions =
      [(⟨.str ("1"), .str ("alpha")⟩ : JTag)]) ∧
    ((searchTagsSuccess (initialState ("p")) []
        [jobjOf [(("documentId"), .str ("2")), (("name"), .str ("ab"))]]).1.suggestions =
      [(⟨.str ("2"), .str ("ab")⟩ : JTag)]) ∧
    [(⟨.str ("1"), .str ("alpha")⟩ : JTag)] ≠ [(⟨.str ("2"), .str ("ab")⟩ : JTag)] := by
  decide

/-- C3 counterexample: with a committed tag present and no user edit yet,
the decoding effect applied to the empty-string value (empty input) leaves
the committed set unchanged and non-empty, where the claim requires an
empty committed set for empty input. -/
theorem c3_cex :
    valueEffect { initialState ("p") with tags := [JTag.mkStr ("1") ("Go")] } (.str ("")) =
      { initialState ("p") with tags := [JTag.mkStr ("1") ("Go")] } ∧
    ({ initialState ("p") with tags := [JTag.mkStr ("1") ("Go")] } : CState).tags ≠ [] := by
  decide

/-- C3 (amended): the decoding effect never throws (it is a total
function), is a no-op when `editedByUser` is set, replaces the committed
set when the decode is nonempty, and leaves the committed set unchanged
when the input is empty, unparseable, or decodes to the empty list — hence
the committed set is exactly the decode of the value at mount, where it
starts empty. -/
theorem c3_value_effect (s : CState) (v : JsVal) :
    (s.hasUserEdited = true → valueEffect s v = s) ∧
    ((valueEffect s v).tags =
      if s.hasUserEdited then s.tags
      else if parseTagValue v = [] then s.tags else parseTagValue v) ∧
    (s.tags = [] → s.hasUserEdited = false → (valueEffect s v).tags = parseTagValue v) := by
  by_cases hEd : s.hasUserEdited
  · refine ⟨fun _ => by simp [valueEffect, hEd], by simp [valueEffect, hEd], ?_⟩
    intro _ hf
    rw [hf] at hEd
    exact absurd hEd (by simp)
  · refine ⟨fun h => absurd h hEd, ?_, ?_⟩
    · by_cases hp : parseTagValue v = []
      · simp [valueEffect, hEd, hp]
      · have : 0 < (parseTagValue v).length := List.length_pos.mpr hp
        simp [valueEffect, hEd, hp, this]
    · intro ht _
      by_cases hp : parseTagValue v = []
      · simp [valueEffect, hEd, hp, ht]
      · have : 0 < (parseTagValue v).length := List.length_pos.mpr hp
        simp [valueEffect, hEd, this]

/-- C3 witness: at mount (empty committed set, not yet edited), the effect
decodes a JSON-encoded initial value into the committed set. -/
theorem c3_witness :
    (valueEffect (initialState ("p"))
        (.str ("[\x7b\"documentId\":\"1\",\"name\":\"Go\"\x7d]"))).tags =
      [JTag.mkStr ("1") ("Go")] := by
  have h := (c3_value_effect (initialState ("p"))
    (.str ("[\x7b\"documentId\":\"1\",\"name\":\"Go\"\x7d]"))).2.2 rfl rfl
  rw [h]
  decide

/-- Round-trip at the list level: encoding tags whose fields are strings
with non-empty names and decoding through the array branch is the
identity. -/
theorem parseTagData_encodeTagsJsv (S : List JTag)
    (h : ∀ t ∈ S, (∃ d, t.documentId = JsVal.str d) ∧ ∃ n, t.name = JsVal.str n ∧ n ≠ "") :
    parseTagData (encodeTagsJsv S) = S := by
  have core : ∀ (S : List JTag),
      (∀ t ∈ S, (∃ d, t.documentId = JsVal.str d) ∧ ∃ n, t.name = JsVal.str n ∧ n ≠ "") →
      ((S.map encodeTag).filter
          (fun t => truthy t && isObjType t && truthy (getField t ("name")))).map tagOfJs = S := by
    intro S
    induction S with
    | nil => intro _; rfl
    | cons t ts ih =>
      intro h
      obtain ⟨⟨d, hd⟩, n, hn, hne⟩ := h t (List.mem_cons_self t ts)
      have hts := ih (fun u hu => h u (List.mem_cons_of_mem _ hu))
      have hpred : (truthy (encodeTag t) && isObjType (encodeTag t) &&
          truthy (getField (encodeTag t) ("name"))) = true := by
        rw [getField_encodeTag_name, hn]
        simp [encodeTag, truthy, isObjType, hne]
      have htag : tagOfJs (encodeTag t) = t := by
        unfold tagOfJs
        rw [getField_encodeTag_name, getField_encodeTag_documentId, hd, hn]
        cases t with
        | mk dd nn =>
          simp only at hd hn
          subst hd hn
          by_cases hd0 : d = "" <;> simp [truthy, hd0]
      simp only [List.map_cons, List.filter_cons, hpred, if_true, List.map_cons, htag, hts]
  have := core S h
  simpa [parseTagData, encodeTagsJsv] using this

/-- C1 (amended): decoding the encoded value reproduces the committed set
exactly — in order and content — for every committed set whose entries
have string `documentId`s and non-empty string names (the declared
`TagData` shape).  `JSON.parse ∘ JSON.stringify` is the identity on JSON
values, so the round trip is stated on the JSON value that
`JSON.stringify(S)` serializes; an entry with an empty name is dropped by
the decoder's truthiness filter, which is what the counterexample
exhibits. -/
theorem c1_roundtrip (S : List JTag)
    (h : ∀ t ∈ S, (∃ d, t.documentId = JsVal.str d) ∧ ∃ n, t.name = JsVal.str n ∧ n ≠ "") :
    parseTagValue (encodeTagsJsv S) = S := by
  have hdata := parseTagData_encodeTagsJsv S h
  unfold encodeTagsJsv at hdata ⊢
  simpa [parseTagValue, truthy] using hdata

/-- C1 witness: the round trip at a concrete one-element committed set. -/
theorem c1_roundtrip_witness :
    parseTagValue (encodeTagsJsv [JTag.mkStr ("1") ("Go")]) = [JTag.mkStr ("1") ("Go")] := by
  refine c1_roundtrip [JTag.mkStr ("1") ("Go")] ?_
  intro t ht
  simp [JTag.mkStr] at ht
  subst ht
  exact ⟨⟨"1", rfl⟩, "Go", rfl, by decide⟩

/-- C1 counterexample: a committed set containing a tag with an empty name
does not survive the round trip — here through the full string pipeline,
`parseTagValue` applied to `JSON.stringify` of the set — because the
decoder drops entries whose `name` is falsy.  The claim quantifies over
every committed set of tag records and therefore fails. -/
theorem c1_cex :
    parseTagValue (.str (jsonStringify (encodeTagsJsv [⟨.str ("a"), .str ("")⟩]))) ≠
      [(⟨.str ("a"), .str ("")⟩ : JTag)] := by
  decide

/-- C4 (confirmed): when the trimmed name is already present
case-insensitively among the committed names, `findOrCreateTag` returns
null having performed zero directory requests and leaving the
creation flag untouched — the duplicate check runs before
`setIsCreating(true)` and before any network request — and the enclosing
`addTag` leaves the committed set unchanged and notifies nobody. -/
theorem c4_duplicate_commit_noop (s : CState) (fieldName nm : String)
    (sb : DirResult (List JsVal)) (cb : DirResult JsVal)
    (hdup : ∃ t ∈ s.tags, jsToLower (strOf t.name) = jsToLower (jsTrim nm)) :
    (findOrCreateTag s.tagApiPath s.tags s.isCreating nm sb cb).result = none ∧
    (findOrCreateTag s.tagApiPath s.tags s.isCreating nm sb cb).dirCalls = 0 ∧
    (findOrCreateTag s.tagApiPath s.tags s.isCreating nm sb cb).isCreatingAfter = s.isCreating ∧
    (addTag s fieldName (.name nm) sb cb).state.tags = s.tags ∧
    (addTag s fieldName (.name nm) sb cb).notified = [] ∧
    (addTag s fieldName (.name nm) sb cb).dirCalls = 0 := by
  have hfoc : findOrCreateTag s.tagApiPath s.tags s.isCreating nm sb cb =
      ⟨none, 0, s.isCreating⟩ := by
    unfold findOrCreateTag
    by_cases h0 : jsTrim nm = "" ∨ s.tagApiPath = ""
    · simp [h0]
    · obtain ⟨t, ht, heq⟩ := hdup
      have hfind :
          (s.tags.find? (fun t => jsToLower (strOf t.name) = jsToLower (jsTrim nm))).isSome :=
        List.find?_isSome.mpr ⟨t, ht, by simpa using heq⟩
      simp [h0, hfind]
  refine ⟨by rw [hfoc], by rw [hfoc], by rw [hfoc], ?_, ?_, ?_⟩ <;>
    simp [addTag, hfoc, clearDraft]

/-- C4 witness: committing `"go "` (differing in case and padding) against
a committed set containing `Go` is a no-op with zero directory calls. -/
theorem c4_witness :
    (findOrCreateTag sampleState.tagApiPath sampleState.tags sampleState.isCreating ("go ")
        .err .err).dirCalls = 0 ∧
    (addTag sampleState ("tags") (.name ("go ")) .err .err).state.tags = sampleState.tags ∧
    (addTag sampleState ("tags") (.name ("go ")) .err .err).notified = [] := by
  have h := c4_duplicate_commit_noop sampleState ("tags") ("go ") .err .err
    ⟨JTag.mkStr ("1") ("Go"), by decide, by decide⟩
  exact ⟨h.2.1, h.2.2.2.1, h.2.2.2.2.1⟩

/-- C5 counterexample: `removeTag` with a `documentId` absent from the
committed set is not a no-op — the component still re-encodes, emits one
change notification carrying the unchanged list, and latches
`hasUserEdited`. -/
theorem c5_cex :
    (removeTag sampleState ("tags") (.str ("zz"))).2 ≠ [] ∧
    (removeTag sampleState ("tags") (.str ("zz"))).1.hasUserEdited = true := by
  decide

/-- C5 (amended): every successful add (a resolved name, or a suggestion
record not already present) and every `removeTag` invocation emits exactly
one encode-and-notify call carrying the new list; keystrokes
(`handleInputChange`) and all search paths never notify; `removeTag` with
an absent id leaves the committed set's contents unchanged but still
notifies once (it is not a strict no-op, which the counterexample
records). -/
theorem c5_notify_discipline (s : CState) (fieldName v nm : String)
    (committedAtIssue : List JTag) (results : List JsVal) (t : JTag) (id : JsVal)
    (sb : DirResult (List JsVal)) (cb : DirResult JsVal) :
    (handleInputChange s v).2 = [] ∧
    (searchTagsEmpty s).2 = [] ∧
    (searchTagsSuccess s committedAtIssue results).2 = [] ∧
    (searchTagsFailure s).2 = [] ∧
    (removeTag s fieldName id).2 =
      [mkChangeEvent fieldName (s.tags.filter (fun u => u.documentId != id))] ∧
    ((addTag s fieldName (.name nm) sb cb).notified =
      match (findOrCreateTag s.tagApiPath s.tags s.isCreating nm sb cb).result with
      | some tg => [mkChangeEvent fieldName (s.tags ++ [tg])]
      | none => []) ∧
    ((addTag s fieldName (.tag t) sb cb).notified =
      if (s.tags.find? (fun u => u.documentId == t.documentId)).isSome then []
      else [mkChangeEvent fieldName (s.tags ++ [t])]) ∧
    (s.tags.all (fun u => u.documentId != id) = true →
      (removeTag s fieldName id).1.tags = s.tags ∧ (removeTag s fieldName id).2.length = 1) := by
  refine ⟨rfl, rfl, rfl, rfl, rfl, ?_, ?_, ?_⟩
  · cases hr : (findOrCreateTag s.tagApiPath s.tags s.isCreating nm sb cb).result <;>
      simp [addTag, hr, updateValue, clearDraft]
  · by_cases hf : (s.tags.find? (fun u => u.documentId == t.documentId)).isSome <;>
      simp [addTag, hf, updateValue, clearDraft]
  · intro hall
    have : s.tags.filter (fun u => u.documentId != id) = s.tags :=
      List.filter_eq_self.mpr (List.all_eq_true.mp hall)
    exact ⟨by simp [removeTag, updateValue, this], rfl⟩

/-- C5 witness: a keystroke notifies nobody, and an absent-id removal
keeps the committed set while emitting exactly one notification. -/
theorem c5_witness :
    (handleInputChange sampleState ("g")).2 = [] ∧
    (removeTag sampleState ("tags") (.str ("zz"))).1.tags = sampleState.tags ∧
    (removeTag sampleState ("tags") (.str ("zz"))).2.length = 1 := by
  have h := c5_notify_discipline sampleState ("tags") ("g") ("x") [] []
    (JTag.mkStr ("9") ("Z")) (.str ("zz")) .err .err
  exact ⟨h.1, (h.2.2.2.2.2.2.2 (by decide)).1, (h.2.2.2.2.2.2.2 (by decide)).2⟩

/-- C6 (confirmed): `findOrCreateTag` is total over every directory
behaviour (it never throws: rejections of either request are caught), it
returns null when the exact-match search rejects, when the search finds
nothing and the creation rejects, and when the creation response (after
the `data?.data || data` unwrapping) lacks a truthy identifier; and with
the creation flag clear on entry — the component disables input while a
creation is in flight — the flag is clear again on every exit path. -/
theorem c6_find_or_create_total (path nm : String) (tags : List JTag) (d : JsVal)
    (sb : DirResult (List JsVal)) (cb : DirResult JsVal) :
    (findOrCreateTag path tags false nm sb cb).isCreatingAfter = false ∧
    (sb = .err → (findOrCreateTag path tags false nm sb cb).result = none) ∧
    (sb = .ok [] → cb = .err → (findOrCreateTag path tags false nm sb cb).result = none) ∧
    (sb = .ok [] → cb = .ok d →
      truthy (getField (if truthy (getField d ("data")) then getField d ("data") else d)
        ("documentId")) = false →
      (findOrCreateTag path tags false nm sb cb).result = none) := by
  unfold findOrCreateTag
  by_cases h0 : jsTrim nm = "" ∨ path = ""
  · simp [h0]
  · by_cases h1 : (tags.find? (fun t => jsToLower (strOf t.name) = jsToLower (jsTrim nm))).isSome
    · simp [h0, h1]
    · cases sb with
      | err => simp [h0, h1]
      | ok existing =>
        cases existing with
        | cons e es => simp [h0, h1]
        | nil =>
          cases cb with
          | err => simp [h0, h1]
          | ok resp =>
            refine ⟨?_, by simp [h0, h1], by simp [h0, h1], ?_⟩
            · by_cases hc : truthy (getField
                  (if truthy (getField resp ("data")) then getField resp ("data") else resp)
                  ("documentId")) <;>
                simp [h0, h1, hc]
            · intro _ hcd htr
              have hrd : resp = d := by injection hcd
              subst hrd
              simp [h0, h1, htr]

/-- C6 witness: concrete failure modes — search rejection, not-found then
creation rejection, and a creation response lacking an identifier — all
return null with the creation flag clear. -/
theorem c6_witness :
    (findOrCreateTag ("/p") [] false ("rust") .err .err).isCreatingAfter = false ∧
    (findOrCreateTag ("/p") [] false ("rust") .err .err).result = none ∧
    (findOrCreateTag ("/p") [] false ("rust") (.ok []) .err).result = none ∧
    (findOrCreateTag ("/p") [] false ("rust") (.ok []) (.ok (jobjOf []))).result = none := by
  refine ⟨(c6_find_or_create_total ("/p") ("rust") [] (jobjOf []) .err .err).1,
    (c6_find_or_create_total ("/p") ("rust") [] (jobjOf []) .err .err).2.1 rfl,
    (c6_find_or_create_total ("/p") ("rust") [] (jobjOf []) (.ok []) .err).2.2.1 rfl rfl,
    (c6_find_or_create_total ("/p") ("rust") [] (jobjOf []) (.ok [])
      (.ok (jobjOf []))).2.2.2 rfl rfl (by decide)⟩

/-- C9 counterexample: with an empty draft and two committed tags both
carrying the empty `documentId` (as produced by decoding entries that
lacked identifiers), Backspace removes *both* tags — `removeTag` filters
by `documentId`, not by position — where the claim requires exactly the
last tag to be removed. -/
theorem c9_cex :
    (handleKeyDown
        { initialState ("p") with tags := [⟨.str (""), .str ("a")⟩, ⟨.str (""), .str ("b")⟩] }
        ("tags") ("Backspace") .err .err).state.tags = [] ∧
    (handleKeyDown
        { initialState ("p") with tags := [⟨.str (""), .str ("a")⟩, ⟨.str (""), .str ("b")⟩] }
        ("tags") ("Backspace") .err .err).state.tags ≠
      [(⟨.str (""), .str ("a")⟩ : JTag)] := by
  decide

/-- C9 (amended): Backspace with an empty draft and a non-empty committed
set removes every committed tag whose `documentId` equals the last tag's;
when no earlier tag shares the last tag's `documentId` — in particular
whenever identifiers are distinct — exactly the last tag is removed, and
the Field Host is notified once with the remaining tags. -/
theorem c9_backspace_removes_last (st : CState) (fieldName : String) (ts : List JTag) (t : JTag)
    (sb : DirResult (List JsVal)) (cb : DirResult JsVal)
    (hin : st.inputValue = "") (htags : st.tags = ts ++ [t])
    (hun : ∀ u ∈ ts, (u.documentId != t.documentId) = true) :
    (handleKeyDown st fieldName ("Backspace") sb cb).state.tags = ts ∧
    (handleKeyDown st fieldName ("Backspace") sb cb).notified = [mkChangeEvent fieldName ts] ∧
    (handleKeyDown st fieldName ("Backspace") sb cb).dirCalls = 0 := by
  have hlen : st.tags.length > 0 := by rw [htags]; simp
  have hlast : st.tags.getLast? = some t := by rw [htags]; exact List.getLast?_concat ts
  have hfilter : st.tags.filter (fun u => u.documentId != t.documentId) = ts := by
    rw [htags, List.filter_append, List.filter_eq_self.mpr hun]
    simp
  unfold handleKeyDown
  simp [hin, hlen, hlast, removeTag, updateValue, hfilter]

/-- C9 witness: with distinct identifiers, Backspace on an empty draft
removes exactly the last committed tag and notifies with the remaining
one. -/
theorem c9_witness :
    (handleKeyDown
        { initialState ("p") with tags := [JTag.mkStr ("1") ("Go"), JTag.mkStr ("2") ("Rust")] }
        ("tags") ("Backspace") .err .err).state.tags = [JTag.mkStr ("1") ("Go")] ∧
    (handleKeyDown
        { initialState ("p") with tags := [JTag.mkStr ("1") ("Go"), JTag.mkStr ("2") ("Rust")] }
        ("tags") ("Backspace") .err .err).notified =
      [mkChangeEvent ("tags") [JTag.mkStr ("1") ("Go")]] := by
  have h := c9_backspace_removes_last
    { initialState ("p") with tags := [JTag.mkStr ("1") ("Go"), JTag.mkStr ("2") ("Rust")] }
    ("tags") [JTag.mkStr ("1") ("Go")] (JTag.mkStr ("2") ("Rust")) .err .err rfl rfl
    (by decide)
  exact ⟨h.1, h.2.1⟩

/-- C10 counterexample: the decoder does not guarantee a *string*
`documentId` — a truthy non-string identifier (here the number 5) is kept
verbatim by `t.documentId || ''` — nor a *non-empty* string name: an entry
whose `name` is the truthy empty array is kept with the empty string name
(`String([])` is `""`).  Both refute the claimed shape. -/
theorem c10_cex :
    parseTagValue (jarr [jobjOf [(("documentId"), .num 5), (("name"), .str ("x"))]]) =
      [(⟨.num 5, .str ("x")⟩ : JTag)] ∧
    isStrVal (JsVal.num 5) = false ∧
    parseTagValue (jarr [jobjOf [(("name"), jarr [])]]) = [(⟨.str (""), .str ("")⟩ : JTag)] ∧
    (⟨.str (""), .str ("")⟩ : JTag).name = .str ("") := by
  decide

/-- C10 (amended): for every input, `parseTagValue` returns (without
throwing — it is total) a list in which every element's `name` is a string
(the `String(-)` coercion of the entry's truthy `name`, possibly empty)
and every element's `documentId` is either the entry's original truthy
value (not necessarily a string) or the empty string substituted for a
falsy one; entries that are not objects or whose `name` is missing or
falsy are silently dropped. -/
theorem c10_decode_shape (v : JsVal) (t : JTag) (ht : t ∈ parseTagValue v) :
    isStrVal t.name = true ∧ (truthy t.documentId = true ∨ t.documentId = .str ("")) := by
  have hshape : ∀ u : JsVal, isStrVal (tagOfJs u).name = true ∧
      (truthy (tagOfJs u).documentId = true ∨ (tagOfJs u).documentId = .str ("")) := by
    intro u
    refine ⟨rfl, ?_⟩
    unfold tagOfJs
    by_cases h : truthy (getField u ("documentId")) <;> simp [h]
  have hdata : ∀ d : JsVal, t ∈ parseTagData d →
      isStrVal t.name = true ∧ (truthy t.documentId = true ∨ t.documentId = .str ("")) := by
    intro d hd
    unfold parseTagData at hd
    cases d <;> simp at hd
    obtain ⟨u, _, rfl⟩ := hd
    exact hshape u
  have hsub : parseTagValue v = [] ∨ ∃ d, parseTagValue v = parseTagData d := by
    cases v with
    | str s =>
      by_cases hs : s = ""
      · subst hs; left; rfl
      · cases hp : jsonParse s with
        | none => left; simp [parseTagValue, truthy, hs, hp]
        | some dd => right; exact ⟨dd, by simp [parseTagValue, truthy, hs, hp]⟩
    | undefined => left; rfl
    | null => left; rfl
    | bool b => cases b with
      | false => left; rfl
      | true => right; exact ⟨.bool true, rfl⟩
    | num n =>
      by_cases hn : n = 0
      · subst hn; left; rfl
      · right; exact ⟨.num n, by simp [parseTagValue, truthy, hn]⟩
    | arr xs => right; exact ⟨.arr xs, rfl⟩
    | obj fs => right; exact ⟨.obj fs, rfl⟩
  rcases hsub with h | ⟨d, hd⟩
  · rw [h] at ht
    exact absurd ht (List.not_mem_nil t)
  · rw [hd] at ht
    exact hdata d ht

/-- C10 witness: a decoded entry that lacked an identifier carries the
substituted empty-string `documentId` and a string name. -/
theorem c10_witness :
    isStrVal (⟨.str (""), .str ("a")⟩ : JTag).name = true ∧
    (truthy (⟨.str (""), .str ("a")⟩ : JTag).documentId = true ∨
      (⟨.str (""), .str ("a")⟩ : JTag).documentId = .str ("")) :=
  c10_decode_shape (jarr [jobjOf [(("name"), .str ("a"))]]) ⟨.str (""), .str ("a")⟩ (by decide)
